import Mathlib

/-!
Verification of the process-execution event-stream core of codex-go
(package exec: Options, Event, Runner, LocalRunner.Start).

The embedding models:
- the data types Options, EventType and Event exactly as declared in Go
  (Go zero values of the unused Event fields are 0 and "");
- the control flow of LocalRunner.Start over an oracle carrying the
  outcomes of its three OS calls (StdoutPipe, StderrPipe, cmd.Start);
- the drain loop `stream` as a function of the sequence of bufio Read
  results of one standard stream;
- the exit-code computation of the exit watcher as a function of the
  cmd.Wait result;
- the effect of the returned cancel functions on an explicit execution
  state (parent context, timeout-derived scope, feed-closed flag);
- the concurrency of the three goroutines spawned by a successful Start
  as an interleaving semantics over their channel-operation programs:
  a schedule picks which goroutine performs its next operation on the
  shared events channel, and the consumer observes publishes in channel
  order up to the first close.
-/

namespace CodexGo

/-- Go error values are modelled abstractly by their message. -/
abbrev GoError := String

/-- Options controls how a command should be executed: working directory
(empty means inherit), environment as KEY=VALUE entries (empty means
inherit), and a soft timeout enforced when TimeoutSec > 0. -/
structure Options where
  cwd : String
  env : List String
  timeoutSec : Int
deriving DecidableEq, Repr

/-- EventType: the kind of stream event (EventStdout, EventStderr, EventExit). -/
inductive EventType where
  | stdout
  | stderr
  | exit
deriving DecidableEq, Repr

/-- Event: a single item in the execution event stream. Go leaves the
fields not set by a composite literal at their zero values (0 for Code,
the empty string for Data). -/
structure Event where
  type : EventType
  data : String
  code : Int
deriving DecidableEq, Repr

/-- Outcome value returned alongside the byte count by one bufio Read
call in the drain loop: eof models io.EOF, other models any other read
error. -/
inductive ReadErr where
  | eof
  | other (e : GoError)
deriving DecidableEq, Repr

/-- One bufio Read result: the bytes placed into the 4096-byte buffer
(as the string the Go code builds with string(buf[:n])) together with
the error value returned alongside them. -/
abbrev ReadRes := String × Option ReadErr

/-- The fixed read-buffer size of the drain loop: const chunk = 4096. -/
def chunkSize : Nat := 4096

/-- The drain loop `stream` of LocalRunner.Start: each iteration reads
into a fresh 4096-byte buffer; if n > 0 it sends
Event{Type: et, Data: string(buf[:n])}; then, if the read returned an
error, the loop returns — for io.EOF and for any other error alike —
otherwise it loops. The function maps the sequence of read results of
one stream to the sequence of events that drain publishes. -/
def stream (et : EventType) : List ReadRes → List Event
  | [] => []
  | (d, some _) :: _ =>
      if d = "" then [] else [{ type := et, data := d, code := 0 }]
  | (d, none) :: rest =>
      (if d = "" then [] else [{ type := et, data := d, code := 0 }]) ++ stream et rest

/-- The reads a drain processes before stopping: every read up to and
including the first one that carries an error value. -/
def readsUntilErr : List ReadRes → List ReadRes
  | [] => []
  | r :: rest => if r.2.isSome then [r] else r :: readsUntilErr rest

/-- Restatement of the drain description in the words of the spec, for
comparison with `stream`: process the reads in order until the first
erroring read (inclusive); emit one event per non-empty processed read,
carrying exactly the bytes of that read, in order; emit nothing else. -/
def streamSpec (et : EventType) (reads : List ReadRes) : List Event :=
  ((readsUntilErr reads).filter (fun r => r.1 ≠ "")).map
    (fun r => { type := et, data := r.1, code := 0 })

/-- Result of cmd.Wait seen by the exit watcher: clean models a nil
error; exitError models an osexec.ExitError whose Sys value may or may
not expose an ExitStatus; otherError models any other non-nil error. -/
inductive WaitRes where
  | clean
  | exitError (sys : Option Int)
  | otherError (e : GoError)
deriving DecidableEq, Repr

/-- Exit-code computation of the exit watcher: code starts at 0; on a
non-nil error it becomes 1; when the error is an ExitError whose Sys
value exposes an ExitStatus, that status overwrites the 1. -/
def exitCode : WaitRes → Int
  | .clean => 0
  | .exitError (some st) => st
  | .exitError none => 1
  | .otherError _ => 1

/-- The terminal event published by the exit watcher:
Event{Type: EventExit, Code: code}; Data keeps its zero value "". -/
def exitEvent (wr : WaitRes) : Event :=
  { type := .exit, data := "", code := exitCode wr }

/-- An operation a producer goroutine performs on the shared events
channel. -/
inductive ChanOp where
  | publish (e : Event)
  | close
deriving DecidableEq, Repr

/-- Whether a channel operation is a publish (send). -/
def ChanOp.isPublish : ChanOp → Bool
  | .publish _ => true
  | .close => false

/-- Channel-operation program of one drain goroutine: it publishes the
events of its stream, in order, and never closes the channel. -/
def drainOps (et : EventType) (reads : List ReadRes) : List ChanOp :=
  (stream et reads).map ChanOp.publish

/-- Channel-operation program of the exit watcher: publish the single
Exit event, then close the channel; it is the only task with a close. -/
def watcherOps (wr : WaitRes) : List ChanOp :=
  [ChanOp.publish (exitEvent wr), ChanOp.close]

/-- The three goroutines a successful Start spawns. -/
inductive Tid where
  | drainOut
  | drainErr
  | watcher
deriving DecidableEq, Repr

/-- The channel-operation programs of the three tasks of one execution,
as functions of that execution's stdout reads, stderr reads and wait
result. -/
def execTasks (rOut rErr : List ReadRes) (wr : WaitRes) :
    List ChanOp × List ChanOp × List ChanOp :=
  (drainOps .stdout rOut, drainOps .stderr rErr, watcherOps wr)

/-- Interleaving semantics of the three goroutines: a schedule picks at
each step which goroutine performs its next channel operation (picking
a finished task is a stutter). The Go code places no synchronisation
between the drains and the exit watcher — cmd.Wait does not join the
drain goroutines — so every such interleaving is a possible execution. -/
def runSched : List Tid → List ChanOp → List ChanOp → List ChanOp → List ChanOp
  | [], _, _, _ => []
  | .drainOut :: sch, a, b, c =>
    match a with
    | [] => runSched sch [] b c
    | op :: a2 => op :: runSched sch a2 b c
  | .drainErr :: sch, a, b, c =>
    match b with
    | [] => runSched sch a [] c
    | op :: b2 => op :: runSched sch a b2 c
  | .watcher :: sch, a, b, c =>
    match c with
    | [] => runSched sch a b []
    | op :: c2 => op :: runSched sch a b c2

/-- Events a consumer receives from the channel: the publishes in
channel order, up to the first close; a send attempted on a closed
channel delivers nothing (in Go it is a runtime fault). -/
def deliveredEvents : List ChanOp → List Event
  | [] => []
  | .publish e :: rest => e :: deliveredEvents rest
  | .close :: _ => []

/-- True when some publish operation is attempted after the channel has
been closed: in Go such a send faults the program. -/
def sendAfterClose : List ChanOp → Bool
  | [] => false
  | .publish _ :: rest => sendAfterClose rest
  | .close :: rest => rest.any ChanOp.isPublish

/-- Channel operations performed on the feed returned for empty argv:
the code makes a channel and immediately closes it — one close, no
publishes. -/
def closedEmptyFeedOps : List ChanOp := [ChanOp.close]

/-- Outcomes of the OS calls Start performs, in program order:
cmd.StdoutPipe, cmd.StderrPipe, cmd.Start (none = the call succeeded). -/
structure OSExec where
  stdoutPipeErr : Option GoError
  stderrPipeErr : Option GoError
  startErr : Option GoError
deriving DecidableEq, Repr

/-- An oracle on which all three OS calls succeed. -/
def okOS : OSExec := { stdoutPipeErr := none, stderrPipeErr := none, startErr := none }

/-- Shape of the event feed handed back by Start. -/
inductive FeedShape where
  | closedEmpty
  | live
deriving DecidableEq, Repr

/-- The cancel function returned by Start: the empty-argv branch returns
a function that only returns nil (noop); the successful branch returns
the closure that captured cancelTimeout, which is non-nil exactly when
opt.TimeoutSec > 0. -/
inductive CancelKind where
  | noop
  | runnerCancel (hasCancelTimeout : Bool)
deriving DecidableEq, Repr

/-- Cancellation and feed state of one execution: whether the caller has
cancelled the parent context, whether the timeout-derived scope (when
one was created) has been cancelled and its timer released, and whether
the events channel has been closed. -/
structure ExecState where
  parentCancelled : Bool
  timerCtxCancelled : Bool
  timerReleased : Bool
  feedClosed : Bool
deriving DecidableEq, Repr

/-- The state before anything has been cancelled or closed. -/
def initialState : ExecState :=
  { parentCancelled := false, timerCtxCancelled := false,
    timerReleased := false, feedClosed := false }

/-- Effect of one invocation of a cancel function: the empty-argv cancel
does nothing; the runner cancel calls cancelTimeout() when it captured a
non-nil one — cancelling the timeout-derived context and releasing its
timer — and otherwise does nothing at all. Neither touches the events
channel, performs any channel operation, or blocks. -/
def CancelKind.run : CancelKind → ExecState → ExecState
  | .noop, s => s
  | .runnerCancel ct, s =>
    if ct then { s with timerCtxCancelled := true, timerReleased := true } else s

/-- Whether the context CommandContext bound the process to is
cancelled: the timeout-derived scope when one was created, otherwise the
parent context itself. CommandContext kills the process exactly when
this context becomes cancelled. -/
def processCtxCancelled (hasTimeout : Bool) (s : ExecState) : Bool :=
  if hasTimeout then s.parentCancelled || s.timerCtxCancelled else s.parentCancelled

/-- What LocalRunner.Start returns, together with the launch-time facts
the specification talks about: the feed and cancel values (none models a
nil return), the error, whether a timeout scope was created and whether
it was released before Start returned, whether the OS process was
started, and the Dir and Env fields set on the command. -/
structure StartRet where
  feed : Option FeedShape
  cancel : Option CancelKind
  err : Option GoError
  timerScopeCreated : Bool
  timerScopeReleased : Bool
  processStarted : Bool
  cmdDir : Option String
  cmdEnv : Option (List String)
deriving DecidableEq, Repr

/-- LocalRunner.Start, modelled on the outcomes of its OS calls and
mirroring the Go control flow: the empty-argv null-op branch; creation
of the timeout scope when opt.TimeoutSec > 0; application of Cwd and Env
to the command when non-empty; the three failure returns, each calling
cancelTimeout() first when it is non-nil and returning (nil, nil, err);
and the successful return of the live feed and the cancel closure. -/
def localRunnerStart (argv : List String) (opt : Options) (os : OSExec) : StartRet :=
  if argv = [] then
    { feed := some .closedEmpty, cancel := some .noop, err := none,
      timerScopeCreated := false, timerScopeReleased := false,
      processStarted := false, cmdDir := none, cmdEnv := none }
  else
    let created := decide (opt.timeoutSec > 0)
    let dir := if opt.cwd = "" then none else some opt.cwd
    let env := if opt.env.length > 0 then some opt.env else none
    match os.stdoutPipeErr with
    | some e =>
      { feed := none, cancel := none, err := some e,
        timerScopeCreated := created, timerScopeReleased := created,
        processStarted := false, cmdDir := dir, cmdEnv := env }
    | none =>
      match os.stderrPipeErr with
      | some e =>
        { feed := none, cancel := none, err := some e,
          timerScopeCreated := created, timerScopeReleased := created,
          processStarted := false, cmdDir := dir, cmdEnv := env }
      | none =>
        match os.startErr with
        | some e =>
          { feed := none, cancel := none, err := some e,
            timerScopeCreated := created, timerScopeReleased := created,
            processStarted := false, cmdDir := dir, cmdEnv := env }
        | none =>
          { feed := some .live, cancel := some (.runnerCancel created), err := none,
            timerScopeCreated := created, timerScopeReleased := false,
            processStarted := true, cmdDir := dir, cmdEnv := env }

/-- Effective environment of the spawned process, per os/exec semantics:
a nil cmd.Env makes the child inherit the ambient environment of the
caller; a non-nil cmd.Env replaces it entirely. -/
def effectiveEnv (cmdEnv : Option (List String)) (ambient : List String) : List String :=
  match cmdEnv with
  | some e => e
  | none => ambient

/-- What the specification requires of a failed launch: the error is
surfaced, the feed and cancel returns are nil, the process was not
started, and the timeout-derived scope, when one was created, was
released before Start returned. -/
def failureContract (r : StartRet) (e : GoError) : Prop :=
  r.err = some e ∧ r.feed = none ∧ r.cancel = none ∧ r.processStarted = false
    ∧ (r.timerScopeCreated = true → r.timerScopeReleased = true)

end CodexGo

namespace CodexGo

/-- Every event a drain publishes comes from one of its non-empty reads
and carries exactly the bytes of that read, with code 0 and the type of
its stream. -/
theorem mem_stream (et : EventType) :
    ∀ (reads : List ReadRes) (ev : Event), ev ∈ stream et reads →
      ∃ r ∈ reads, r.1 ≠ "" ∧ ev = { type := et, data := r.1, code := 0 } := by
  intro reads
  induction reads with
  | nil => intro ev h; simp [stream] at h
  | cons r rest ih =>
    obtain ⟨d, e⟩ := r
    intro ev h
    cases e with
    | some er =>
      by_cases hd : d = "" <;> simp [stream, hd] at h
      exact ⟨(d, some er), List.mem_cons_self _ _, hd, h⟩
    | none =>
      by_cases hd : d = ""
      · simp [stream, hd] at h
        obtain ⟨r2, hr2, h1, h2⟩ := ih ev h
        exact ⟨r2, List.mem_cons_of_mem _ hr2, h1, h2⟩
      · simp [stream, hd] at h
        cases h with
        | inl h => exact ⟨(d, none), List.mem_cons_self _ _, hd, h⟩
        | inr h =>
          obtain ⟨r2, hr2, h1, h2⟩ := ih ev h
          exact ⟨r2, List.mem_cons_of_mem _ hr2, h1, h2⟩

/-- On every non-empty argv branch, the Env field the command receives
is the override list when it is non-empty and nil otherwise. -/
theorem localRunnerStart_cmdEnv (argv : List String) (opt : Options) (os : OSExec)
    (h : argv ≠ []) :
    (localRunnerStart argv opt os).cmdEnv
      = (if opt.env.length > 0 then some opt.env else none) := by
  obtain ⟨so, se, st⟩ := os
  cases so <;> cases se <;> cases st <;> simp [localRunnerStart, h]

end CodexGo

namespace CodexGo

/-- C1: the claim states that invoking the cancel returned by a
successful Start forcefully terminates the process regardless of
whether a timeout was configured. Evaluated at a launch with
TimeoutSec = 0: the returned cancel closure captured a nil
cancelTimeout, invoking it leaves the execution state unchanged, and
the context CommandContext bound the process to is still uncancelled,
so the process is never killed. With a timeout configured the same
invocation does cancel that context. -/
theorem C1_cancel_without_timeout_does_not_kill :
    (localRunnerStart ["sleep", "100"] { cwd := "", env := [], timeoutSec := 0 } okOS).cancel
        = some (CancelKind.runnerCancel false)
    ∧ CancelKind.run (CancelKind.runnerCancel false) initialState = initialState
    ∧ processCtxCancelled false (CancelKind.run (CancelKind.runnerCancel false) initialState)
        = false
    ∧ processCtxCancelled true (CancelKind.run (CancelKind.runnerCancel true) initialState)
        = true := by
  refine ⟨?_, rfl, rfl, rfl⟩
  rfl

/-- C2: the claim states that the Exit event is always the last event
delivered and that no stdout or stderr publish ever happens after the
channel is closed. The exit watcher never joins the drain goroutines
(cmd.Wait does not wait for them), so both orderings are reachable:
under one schedule the consumer receives a stdout event after the Exit
event, and under another the stdout drain attempts its publish after
the watcher has already closed the channel. -/
theorem C2_drain_publish_races_exit_and_close :
    deliveredEvents
        (runSched [Tid.watcher, Tid.drainOut, Tid.watcher]
          (drainOps EventType.stdout [("hi", some ReadErr.eof)])
          (drainOps EventType.stderr [])
          (watcherOps WaitRes.clean))
      = [exitEvent WaitRes.clean, { type := EventType.stdout, data := "hi", code := 0 }]
    ∧ sendAfterClose
        (runSched [Tid.watcher, Tid.watcher, Tid.drainOut]
          (drainOps EventType.stdout [("hi", some ReadErr.eof)])
          (drainOps EventType.stderr [])
          (watcherOps WaitRes.clean))
      = true := by
  refine ⟨?_, ?_⟩ <;> rfl

/-- C3: for empty argv, Start returns no error, an already-closed empty
feed — delivering zero events, in particular no Exit event — and a
no-op cancel whose invocation changes nothing. -/
theorem C3_empty_argv_nullop (opt : Options) (os : OSExec) (s : ExecState) :
    (localRunnerStart [] opt os).err = none
    ∧ (localRunnerStart [] opt os).feed = some FeedShape.closedEmpty
    ∧ (localRunnerStart [] opt os).cancel = some CancelKind.noop
    ∧ deliveredEvents closedEmptyFeedOps = []
    ∧ CancelKind.run CancelKind.noop s = s := by
  exact ⟨rfl, rfl, rfl, rfl, rfl⟩

/-- C5: the terminal event is the Exit event carrying the computed
code: 0 on a clean exit; the decoded OS exit status when cmd.Wait
returns an ExitError whose Sys value exposes one; and exactly the
fallback 1 when the status cannot be decoded or the error is not an
ExitError. The watcher operating alone delivers exactly that one Exit
event. -/
theorem C5_exit_code_policy :
    (∀ wr : WaitRes, (exitEvent wr).type = EventType.exit ∧ (exitEvent wr).code = exitCode wr)
    ∧ (∀ wr : WaitRes, deliveredEvents (watcherOps wr) = [exitEvent wr])
    ∧ exitCode WaitRes.clean = 0
    ∧ (∀ st : Int, exitCode (WaitRes.exitError (some st)) = st)
    ∧ exitCode (WaitRes.exitError none) = 1
    ∧ (∀ e : GoError, exitCode (WaitRes.otherError e) = 1) := by
  exact ⟨fun wr => ⟨rfl, rfl⟩, fun wr => rfl, rfl, fun st => rfl, rfl, fun e => rfl⟩

end CodexGo

namespace CodexGo

/-- C4: on each launch failure — stdout pipe acquisition, stderr pipe
acquisition, or process start — Start returns the error synchronously
with nil feed and nil cancel, the process is not started, and the
timeout-derived scope, when one was created, is released before the
return; no partial feed is handed back. -/
theorem C4_launch_failures_synchronous (argv : List String) (opt : Options) (os : OSExec)
    (e : GoError) (hargv : argv ≠ []) :
    (os.stdoutPipeErr = some e → failureContract (localRunnerStart argv opt os) e)
    ∧ (os.stdoutPipeErr = none → os.stderrPipeErr = some e →
        failureContract (localRunnerStart argv opt os) e)
    ∧ (os.stdoutPipeErr = none → os.stderrPipeErr = none → os.startErr = some e →
        failureContract (localRunnerStart argv opt os) e) := by
  obtain ⟨so, se, st⟩ := os
  refine ⟨?_, ?_, ?_⟩
  · rintro rfl
    simp [localRunnerStart, failureContract, hargv]
  · rintro rfl rfl
    simp [localRunnerStart, failureContract, hargv]
  · rintro rfl rfl rfl
    simp [localRunnerStart, failureContract, hargv]

/-- Witness for C4 at a concrete failing launch: stdout pipe
acquisition fails with "boom" while a timeout is configured. -/
theorem C4_witness :
    failureContract
      (localRunnerStart ["a"] { cwd := "", env := [], timeoutSec := 5 }
        { stdoutPipeErr := some "boom", stderrPipeErr := none, startErr := none }) "boom" :=
  (C4_launch_failures_synchronous ["a"] { cwd := "", env := [], timeoutSec := 5 }
      { stdoutPipeErr := some "boom", stderrPipeErr := none, startErr := none } "boom"
      (by decide)).1 rfl

/-- C6: the drain loop behaves exactly as the spec describes it — the
events it emits are one event per non-empty read, carrying exactly the
bytes of that read, in order, up to and including the first erroring
read (end-of-stream or otherwise) and nothing after it; and the
channel-operation programs of the sibling stream and of the exit
watcher do not depend on this stream's reads. -/
theorem C6_drain_matches_spec (et : EventType) (reads rOut rOut2 rErr rErr2 : List ReadRes)
    (wr : WaitRes) :
    stream et reads = streamSpec et reads
    ∧ (execTasks rOut rErr wr).2 = (execTasks rOut2 rErr wr).2
    ∧ (execTasks rOut rErr wr).1 = (execTasks rOut rErr2 wr).1 := by
  refine ⟨?_, rfl, rfl⟩
  induction reads with
  | nil => rfl
  | cons r rest ih =>
    obtain ⟨d, e⟩ := r
    cases e with
    | some er =>
      by_cases hd : d = "" <;>
        simp [stream, streamSpec, readsUntilErr, hd]
    | none =>
      by_cases hd : d = "" <;>
        simp [stream, streamSpec, readsUntilErr, hd] at ih ⊢ <;>
        simp [ih]

/-- C7: a non-empty Env override list becomes the entire environment of
the spawned process (replacement, not a merge), and an empty list makes
the process inherit the ambient environment of the caller. -/
theorem C7_env_override_replaces (argv : List String) (opt : Options) (os : OSExec)
    (ambient : List String) (hargv : argv ≠ []) :
    (opt.env ≠ [] → effectiveEnv (localRunnerStart argv opt os).cmdEnv ambient = opt.env)
    ∧ (opt.env = [] → effectiveEnv (localRunnerStart argv opt os).cmdEnv ambient = ambient) := by
  have h1 := localRunnerStart_cmdEnv argv opt os hargv
  constructor
  · intro he
    have hp : opt.env.length > 0 := List.length_pos.mpr he
    rw [h1, if_pos hp]
    rfl
  · intro he
    rw [h1, he]
    simp [effectiveEnv]

/-- Witness for C7 at a concrete launch: the override list ["K=V"]
replaces the ambient environment ["A=B"] entirely. -/
theorem C7_witness :
    effectiveEnv
      (localRunnerStart ["a"] { cwd := "", env := ["K=V"], timeoutSec := 0 } okOS).cmdEnv
      ["A=B"] = ["K=V"] :=
  (C7_env_override_replaces ["a"] { cwd := "", env := ["K=V"], timeoutSec := 0 } okOS ["A=B"]
      (by decide)).1 (by decide)

/-- C8: every cancel function Start can return (the empty-argv no-op
and the runner cancel closure, with or without a captured
cancelTimeout) is idempotent — any positive number of invocations has
the effect of one — and no invocation ever closes the event feed. -/
theorem C8_cancel_idempotent (k : CancelKind) (s : ExecState) (n : Nat) (hn : 1 ≤ n) :
    (CancelKind.run k)^[n] s = CancelKind.run k s
    ∧ ((CancelKind.run k)^[n] s).feedClosed = s.feedClosed := by
  have hidem : ∀ t : ExecState,
      CancelKind.run k (CancelKind.run k t) = CancelKind.run k t := by
    intro t
    cases k with
    | noop => rfl
    | runnerCancel ct => cases ct <;> rfl
  have hfc : ∀ t : ExecState, (CancelKind.run k t).feedClosed = t.feedClosed := by
    intro t
    cases k with
    | noop => rfl
    | runnerCancel ct => cases ct <;> rfl
  have hiter : ∀ m : Nat, (CancelKind.run k)^[m + 1] s = CancelKind.run k s := by
    intro m
    induction m with
    | zero => simp
    | succ m ih => rw [Function.iterate_succ_apply', ih, hidem]
  obtain ⟨m, rfl⟩ : ∃ m, n = m + 1 := ⟨n - 1, (Nat.succ_pred_eq_of_pos hn).symm⟩
  exact ⟨hiter m, by rw [hiter m, hfc]⟩

/-- Witness for C8: three invocations of the runner cancel with a
captured cancelTimeout equal one invocation and leave the feed open. -/
theorem C8_witness :
    (CancelKind.run (CancelKind.runnerCancel true))^[3] initialState
        = CancelKind.run (CancelKind.runnerCancel true) initialState
    ∧ ((CancelKind.run (CancelKind.runnerCancel true))^[3] initialState).feedClosed
        = initialState.feedClosed :=
  C8_cancel_idempotent (CancelKind.runnerCancel true) initialState 3 (by decide)

/-- C9: when every read returns at most the 4096-byte buffer capacity
(the guarantee of reading into a 4096-byte buffer), every event a drain
emits has a non-empty payload of at most 4096 bytes: no event is
emitted for a zero-byte read, and no payload exceeds the chunk size. -/
theorem C9_chunk_bounds (et : EventType) (reads : List ReadRes)
    (hb : ∀ r ∈ reads, (r : ReadRes).1.length ≤ chunkSize) :
    ∀ ev ∈ stream et reads, 0 < ev.data.length ∧ ev.data.length ≤ chunkSize := by
  intro ev hev
  obtain ⟨r, hr, hne, rfl⟩ := mem_stream et reads ev hev
  refine ⟨?_, hb r hr⟩
  obtain ⟨d, e⟩ := r
  obtain ⟨l⟩ := d
  cases l with
  | nil => exact absurd rfl hne
  | cons c cs => exact Nat.succ_pos _

/-- Witness for C9 at a concrete read sequence: the single event for
the two-byte read "ab" has a non-empty payload within the chunk size. -/
theorem C9_witness :
    0 < (Event.mk EventType.stdout "ab" 0).data.length
    ∧ (Event.mk EventType.stdout "ab" 0).data.length ≤ chunkSize :=
  C9_chunk_bounds EventType.stdout [("ab", some ReadErr.eof)] (by decide)
    (Event.mk EventType.stdout "ab" 0) (by decide)

/-- C10: events populate only the fields of their variant — every event
a drain emits keeps Code at its zero value 0, and the Exit event keeps
Data at its zero value "". -/
theorem C10_variant_fields (et : EventType) (reads : List ReadRes) (wr : WaitRes) :
    (∀ ev ∈ stream et reads, ev.code = 0) ∧ (exitEvent wr).data = "" := by
  refine ⟨?_, rfl⟩
  intro ev hev
  obtain ⟨r, hr, hne, rfl⟩ := mem_stream et reads ev hev
  rfl

/-- Witness for C10 at a concrete execution: the stdout event for the
read "x" carries Code 0, and the Exit event of a clean wait carries an
empty Data. -/
theorem C10_witness :
    (Event.mk EventType.stdout "x" 0).code = 0 ∧ (exitEvent WaitRes.clean).data = "" :=
  ⟨(C10_variant_fields EventType.stdout [("x", none)] WaitRes.clean).1
      (Event.mk EventType.stdout "x" 0) (by decide),
    (C10_variant_fields EventType.stdout [("x", none)] WaitRes.clean).2⟩

end CodexGo
